import Mathlib

/-!
Verification development for the clash-royale deck analyzer.

The embedding follows the TypeScript sources:
 - `src/src/logic.ts`: card normalization, deck analysis, archetype
   classification, deck generation.
 - `src/src/roles.ts` (registry loader and ml module): role registry,
   feature builder, logistic-regression trainer, win-probability model.

Numbers are modelled as exact rationals.  JavaScript division by zero
produces NaN; where the source can divide by zero the embedded function
returns an `Option` with `none` standing for the non-finite result.
The role/cost registry is loaded at process start from an external data
file (`data/roles.map.json`, absent from the repository); it is modelled
as an explicit `Registry` parameter, with the documented fallback (empty
role sets, no cost entries) available as `emptyRegistry`.
-/

abbrev CardName := String

abbrev Deck := List CardName

/-- The seven archetype tags of `logic.ts` (`Archetype` union type). -/
inductive Archetype where
  | Cycle
  | Bait
  | Beatdown
  | Control
  | Siege
  | BridgeSpam
  | HybridOther
deriving DecidableEq, Repr

/-- The role/cost registry exported by `roles.ts`: `COST` (name to elixir
cost, `none` when the name has no entry) and the eight `ROLE` sets. -/
structure Registry where
  cost : CardName → Option ℚ
  winCon : CardName → Bool
  bigSpell : CardName → Bool
  smallSpell : CardName → Bool
  building : CardName → Bool
  airTarget : CardName → Bool
  splash : CardName → Bool
  reset : CardName → Bool
  champion : CardName → Bool

/-- The fallback registry used when `data/roles.map.json` is missing or
malformed: `COST = {}` and all role sets empty. -/
def emptyRegistry : Registry where
  cost := fun _ => none
  winCon := fun _ => false
  bigSpell := fun _ => false
  smallSpell := fun _ => false
  building := fun _ => false
  airTarget := fun _ => false
  splash := fun _ => false
  reset := fun _ => false
  champion := fun _ => false

/-- Drop a trailing run of whitespace characters. -/
def dropTrailingWs (l : List Char) : List Char :=
  (l.reverse.dropWhile (fun c => c.isWhitespace)).reverse

/-- Core of `normalize` from `logic.ts`:
`n.replace(/\s*\(.*\)$/, "")`.  The regex matches (leftmost-first) a run
of whitespace followed by an opening parenthesis whose matching text runs
to a closing parenthesis at the end of the string; the replacement drops
everything from the whitespace run on.  Such a match exists exactly when
the string ends with a closing parenthesis and contains an opening
parenthesis; the leftmost match then starts at the whitespace run
immediately before the first opening parenthesis. -/
def normCore (s : List Char) : List Char :=
  if s.getLast? = some ')' ∧ '(' ∈ s then
    dropTrailingWs (s.takeWhile (fun c => !(c = '(' : Bool)))
  else s

/-- `normalize` from `logic.ts`: strips a parenthesized variant suffix
(evolutions / skins) from a card name. -/
def normalizeName (s : String) : String := ⟨normCore s.data⟩

/-- JavaScript `Math.round`: rounds to the nearest integer, halves toward
positive infinity. -/
def roundJs (x : ℚ) : ℤ := ⌊x + 1/2⌋

/-- JavaScript comparison `x >= q` where `x` may be NaN (`none`): NaN
compares false. -/
def oge (x : Option ℚ) (q : ℚ) : Bool :=
  match x with
  | none => false
  | some v => decide (q ≤ v)

/-- JavaScript comparison `x <= q` where `x` may be NaN (`none`): NaN
compares false. -/
def ole (x : Option ℚ) (q : ℚ) : Bool :=
  match x with
  | none => false
  | some v => decide (v ≤ q)

/-- The role summary computed by `analyzeDeck` (`DeckAnalysis.roles`). -/
structure RolesInfo where
  hasBigSpell : Bool
  hasSmallSpell : Bool
  hasBuilding : Bool
  hasAirTargeting : Bool
  hasSplash : Bool
  hasReset : Bool
  cheapCycleCount : Nat
  winCons : List CardName
deriving Repr

/-- `classifyArchetype` from `logic.ts`: first-match precedence chain over
the normalized names and the rounded average elixir.  The `roles`
argument is accepted (as in the source) but not consulted. -/
def classifyArchetype (names : List CardName) (avg : Option ℚ)
    (_roles : RolesInfo) : Archetype :=
  if names.any (fun n => n = "X-Bow" ∨ n = "Mortar") then .Siege
  else if (names.any (fun n =>
      (["Golem", "Giant", "Lava Hound", "Elixir Golem", "Electro Giant"] :
        List CardName).contains n)) ∧ oge avg (41/10) then .Beatdown
  else if 2 ≤ (names.filter (fun n =>
      (["Goblin Barrel", "Princess", "Goblin Gang", "Rascals"] :
        List CardName).contains n)).length then .Bait
  else if (names.any (fun n =>
      (["Hog Rider", "Ram Rider", "Royal Hogs", "Wall Breakers"] :
        List CardName).contains n)) ∧ ole avg (16/5) then .Cycle
  else if 2 ≤ (names.filter (fun n =>
      (["Bandit", "Battle Ram", "Royal Ghost", "Dark Prince", "P.E.K.K.A"] :
        List CardName).contains n)).length then .BridgeSpam
  else if names.any (fun n =>
      (["Miner", "Goblin Drill", "Graveyard"] : List CardName).contains n)
    then .Control
  else .HybridOther

/-- The result record of `analyzeDeck`.  `avgElixir` is `none` when the
JavaScript computation yields NaN (empty card list: `0/0`). -/
structure DeckAnalysis where
  avgElixir : Option ℚ
  roles : RolesInfo
  archetype : Archetype
  notes : List String
deriving Repr

/-- `analyzeDeck` from `logic.ts`.  Names are normalized, per-card costs
default to 4, the average is `Math.round(mean * 10) / 10`; the division
`sum / costs.length` is unguarded, so an empty list produces NaN
(`none`). -/
def analyzeDeck (R : Registry) (cards : Deck) : DeckAnalysis :=
  let names := cards.map normalizeName
  let costs := names.map (fun c => (R.cost c).getD 4)
  let avgElixir : Option ℚ :=
    if costs.length = 0 then none
    else some ((roundJs ((costs.sum / (costs.length : ℚ)) * 10) : ℚ) / 10)
  let roles : RolesInfo :=
    { hasBigSpell := names.any R.bigSpell
      hasSmallSpell := names.any R.smallSpell
      hasBuilding := names.any R.building
      hasAirTargeting := names.any R.airTarget
      hasSplash := names.any R.splash
      hasReset := names.any R.reset
      cheapCycleCount :=
        (names.filter (fun c => decide ((R.cost c).getD 99 ≤ 2))).length
      winCons := names.filter R.winCon }
  let archetype := classifyArchetype names avgElixir roles
  let notes : List String :=
    (if roles.hasAirTargeting then [] else ["No reliable anti-air."]) ++
    (if roles.hasSmallSpell then [] else ["No small spell (Log/Zap/etc.)."]) ++
    (if roles.hasBigSpell then [] else ["No big spell (Fireball/Poison/etc.)."]) ++
    (if roles.cheapCycleCount < 2 then ["Consider 1-2 cheap cycle cards."] else []) ++
    (if roles.hasSplash then [] else ["Little splash vs swarms."]) ++
    (if oge avgElixir (9/2) ∧ archetype ≠ .Beatdown
      then ["High elixir for non-beatdown."] else [])
  { avgElixir := avgElixir, roles := roles, archetype := archetype, notes := notes }

/-- `ARCHES` from the ml module: the fixed archetype order used for
one-hot encodings and the opponent distribution. -/
def ARCHES : List Archetype :=
  [.Cycle, .Bait, .Beatdown, .Control, .Siege, .BridgeSpam, .HybridOther]

/-- `WINCONS` from the ml module: the fixed 16-entry ordered win-condition
list for the one-hot block. -/
def WINCONS : List CardName :=
  ["Hog Rider", "X-Bow", "Mortar", "Royal Giant", "Lava Hound", "Balloon",
   "Giant", "Golem", "Miner", "Goblin Drill", "Graveyard", "Ram Rider",
   "Royal Hogs", "Wall Breakers", "Battle Ram", "Goblin Barrel"]

/-- `deckWinconOneHot` from the ml module: names are normalized before the
membership tests against `WINCONS`. -/
def deckWinconOneHot (deck : Deck) : List ℚ :=
  let names := deck.map normalizeName
  WINCONS.map (fun w => if names.contains w then 1 else 0)

/-- `archetypeOneHot` from the ml module. -/
def archetypeOneHot (a : Archetype) : List ℚ :=
  ARCHES.map (fun x => if x = a then 1 else 0)

/-- `has` from the ml module: `deck.some(c => set.has(c))`.  Note: the
deck names are used raw, without `normalize`. -/
def has (set : CardName → Bool) (deck : Deck) : ℚ :=
  if deck.any set then 1 else 0

/-- JavaScript `toFixed(2)` (values here are non-negative): round to two
decimal places. -/
def toFixed2 (x : ℚ) : ℚ := (roundJs (x * 100) : ℚ) / 100

/-- `avgElixir` from the ml module: normalized-name cost lookup with
default 4, division guarded by `Math.max(1, costs.length)`, result
rounded via `toFixed(2)`. -/
def avgElixir (R : Registry) (deck : Deck) : ℚ :=
  let names := deck.map normalizeName
  let costs := names.map (fun n => (R.cost n).getD 4)
  toFixed2 (costs.sum / (max 1 costs.length : ℚ))

/-- `buildFeatures` from the ml module:
`[bias, myAvg, hasBig, hasSmall, hasBldg, hasAir, hasSplash, hasReset,
hasChamp, ...wincon16, ...oppArchetype7, clamped crownDiff]`. -/
def buildFeatures (R : Registry) (deck : Deck) (oppArch : Archetype)
    (crownDiff : ℚ) : List ℚ :=
  1 :: avgElixir R deck ::
  has R.bigSpell deck :: has R.smallSpell deck :: has R.building deck ::
  has R.airTarget deck :: has R.splash deck :: has R.reset deck ::
  has R.champion deck ::
  (deckWinconOneHot deck ++ archetypeOneHot oppArch ++
    [max (-3) (min 3 crownDiff)])

/-- `dot` from the ml module: sums `w[i] * x[i]` for `i < w.length`
(callers always pass `x` at least as long as `w`). -/
def dot (w x : List ℚ) : ℚ := (w.zipWith (fun a b => a * b) x).sum

/-- A training example of the ml module. -/
structure Example where
  x : List ℚ
  y : ℚ

/-- One per-example update of `trainLogReg`: with `p = sigmoid(dot(w, x))`
and `err = p - y`, every weight `j` becomes
`w[j] - lr * (err * x[j] + l2 * w[j])`.  The sigmoid is transcendental,
so the trainer is parametric in it (`sig`); callers always pass `x` of
length `w.length`. -/
def sgdStep (sig : ℚ → ℚ) (l2 lr : ℚ) (w : List ℚ) (ex : Example) :
    List ℚ :=
  let p := sig (dot w ex.x)
  let err := p - ex.y
  (List.range w.length).map (fun j =>
    w.getD j 0 - lr * (err * ex.x.getD j 0 + l2 * w.getD j 0))

/-- `trainLogReg` from the ml module: zero-initialized weights of
dimension `examples[0].x.length`, `epochs` passes of per-example SGD in
list order; empty example list gives `([], 0)`.  The source defaults are
`l2 = 1e-3`, `lr = 0.1`, `epochs = 200`. -/
def trainLogReg (sig : ℚ → ℚ) (examples : List Example) (l2 lr : ℚ)
    (epochs : Nat) : List ℚ × Nat :=
  match examples with
  | [] => ([], 0)
  | e :: _ =>
    let dims := e.x.length
    ((fun w => examples.foldl (sgdStep sig l2 lr) w)^[epochs]
      (List.replicate dims 0), dims)

/-- One battle participant (`team[0]` / `opponent[0]`): an optional card
list and an optional crown count (missing crowns default to 0 at use
sites via `?? 0`). -/
structure PlayerSide where
  cards : Option Deck
  crowns : Option ℤ

/-- One battlelog record: `team` and `opponent` arrays (missing arrays
modelled as empty lists, matching the optional-chaining reads). -/
structure Battle where
  team : List PlayerSide
  opponent : List PlayerSide

/-- The data extracted from one usable battle in `trainWinProbModel`:
both card lists present; crown counts default to 0. -/
structure UB where
  myDeck : Deck
  oppDeck : Deck
  myCrowns : ℤ
  oppCrowns : ℤ

/-- The skip test of the `trainWinProbModel` loop:
`if (!me?.cards || !opp?.cards) continue;`. -/
def battleData (b : Battle) : Option UB :=
  match b.team.head?, b.opponent.head? with
  | some me, some opp =>
    match me.cards, opp.cards with
    | some myDeck, some oppDeck =>
      some ⟨myDeck, oppDeck, me.crowns.getD 0, opp.crowns.getD 0⟩
    | _, _ => none
  | _, _ => none

/-- The usable battles of a battlelog, in battle order. -/
def usable (bs : List Battle) : List UB := bs.filterMap battleData

/-- The training example built from one usable battle: features from the
player deck, the opponent archetype (via `analyzeDeck`) and the crown
differential; label 1 iff the player took strictly more crowns. -/
def exampleOf (R : Registry) (u : UB) : Example :=
  let oppArch := (analyzeDeck R u.oppDeck).archetype
  { x := buildFeatures R u.myDeck oppArch ((u.myCrowns - u.oppCrowns : ℤ) : ℚ)
    y := if u.oppCrowns < u.myCrowns then 1 else 0 }

/-- The ordered example list of `trainWinProbModel`. -/
def mkExamples (R : Registry) (bs : List Battle) : List Example :=
  (usable bs).map (exampleOf R)

/-- The per-archetype count of the `dist` map of `trainWinProbModel`:
number of usable battles whose opponent deck classifies as `a`. -/
def archCounts (R : Registry) (bs : List Battle) (a : Archetype) : Nat :=
  (usable bs).countP (fun u => decide ((analyzeDeck R u.oppDeck).archetype = a))

/-- `total` in `trainWinProbModel`: the sum of all `dist` counts, with
the `|| 1` fallback when the sum is zero. -/
def distTotal (R : Registry) (bs : List Battle) : Nat :=
  let s := (ARCHES.map (archCounts R bs)).sum
  if s = 0 then 1 else s

/-- `oppDist` in `trainWinProbModel`: for every archetype in `ARCHES`
order, its count divided by `total` (0 for unseen archetypes). -/
def oppDistOf (R : Registry) (bs : List Battle) : List (Archetype × ℚ) :=
  ARCHES.map (fun a => (a, (archCounts R bs a : ℚ) / (distTotal R bs : ℚ)))

/-- `WinProbModel` from the ml module. -/
structure WinProbModel where
  w : List ℚ
  dims : Nat
  feat : Deck → Archetype → List ℚ

/-- The result of `trainWinProbModel`. -/
structure TrainResult where
  model : Option WinProbModel
  oppDist : List (Archetype × ℚ)
  samples : Nat

/-- The pure core of `trainWinProbModel` (the battlelog fetch is the
excluded network collaborator): builds the examples and the opponent
distribution, skips training below 10 usable examples, otherwise trains
with the source defaults `l2 = 1e-3`, `lr = 0.1`, `epochs = 200`. -/
def trainWinProbCore (R : Registry) (sig : ℚ → ℚ) (battles : List Battle) :
    TrainResult :=
  let ex := mkExamples R battles
  if ex.length < 10 then
    { model := none, oppDist := oppDistOf R battles, samples := ex.length }
  else
    let t := trainLogReg sig ex (1/1000) (1/10) 200
    let m : WinProbModel :=
      { w := t.1, dims := t.2, feat := fun d a => buildFeatures R d a 0 }
    { model := some m, oppDist := oppDistOf R battles, samples := ex.length }

/-- `predictWinProb` from the ml module: neutral 0.5 on a dimension
mismatch, otherwise the sigmoid of the dot product. -/
def predictWinProb (sig : ℚ → ℚ) (m : WinProbModel) (deck : Deck)
    (oppArch : Archetype) : ℚ :=
  let x := m.feat deck oppArch
  if x.length ≠ m.dims then 1/2 else sig (dot m.w x)

/-- One archetype's card pools (`Pool` in `logic.ts`). -/
structure Pool where
  winCons : List CardName
  supports : List CardName
  cheapCycle : List CardName
  bigSpells : List CardName
  smallSpells : List CardName
  buildings : List CardName
  air : List CardName
  splash : List CardName

/-- `POOLS` from `logic.ts`: the fixed role-labeled pools per archetype. -/
def POOLS : Archetype → Pool
  | .Cycle =>
    { winCons := ["Hog Rider", "Wall Breakers", "Royal Hogs"]
      supports := ["Musketeer", "Archers", "Electro Wizard", "Phoenix", "Knight"]
      cheapCycle := ["Skeletons", "Ice Spirit", "Fire Spirit", "Ice Golem", "Bats"]
      bigSpells := ["Fireball", "Poison"]
      smallSpells := ["The Log", "Zap", "Barbarian Barrel", "Earthquake"]
      buildings := ["Cannon", "Tesla"]
      air := ["Musketeer", "Archers", "Phoenix"]
      splash := ["Valkyrie", "Bomb Tower", "Baby Dragon"] }
  | .Beatdown =>
    { winCons := ["Golem", "Giant", "Lava Hound", "Electro Giant"]
      supports := ["Baby Dragon", "Mega Minion", "Inferno Dragon", "Night Witch", "Phoenix"]
      cheapCycle := ["Skeletons", "Ice Spirit", "Bats"]
      bigSpells := ["Lightning", "Fireball", "Poison", "Rocket"]
      smallSpells := ["Zap", "Barbarian Barrel", "Arrows"]
      buildings := ["Bomb Tower", "Inferno Tower", "Goblin Cage"]
      air := ["Mega Minion", "Baby Dragon", "Phoenix"]
      splash := ["Baby Dragon", "Bomb Tower", "Valkyrie"] }
  | .Control =>
    { winCons := ["Miner", "Goblin Drill", "Graveyard", "Ram Rider"]
      supports := ["Valkyrie", "Electro Wizard", "Phoenix", "Knight", "Baby Dragon"]
      cheapCycle := ["Skeletons", "Ice Spirit", "Bats"]
      bigSpells := ["Poison", "Fireball", "Rocket"]
      smallSpells := ["The Log", "Zap", "Barbarian Barrel", "Arrows", "Tornado"]
      buildings := ["Bomb Tower", "Tesla", "Cannon"]
      air := ["Musketeer", "Archers", "Phoenix", "Baby Dragon"]
      splash := ["Valkyrie", "Bomb Tower", "Baby Dragon"] }
  | .Siege =>
    { winCons := ["X-Bow", "Mortar"]
      supports := ["Archers", "Knight", "Tesla", "Ice Golem", "Musketeer"]
      cheapCycle := ["Skeletons", "Ice Spirit", "Fire Spirit"]
      bigSpells := ["Fireball", "Rocket"]
      smallSpells := ["The Log", "Zap", "Barbarian Barrel"]
      buildings := ["Tesla", "Cannon", "Bomb Tower"]
      air := ["Musketeer", "Archers", "Tesla"]
      splash := ["Bomb Tower", "Valkyrie"] }
  | .BridgeSpam =>
    { winCons := ["Ram Rider", "Battle Ram", "Royal Hogs"]
      supports := ["Bandit", "Royal Ghost", "Dark Prince", "P.E.K.K.A", "Magic Archer"]
      cheapCycle := ["Skeletons", "Ice Spirit", "Bats"]
      bigSpells := ["Fireball", "Poison", "Lightning"]
      smallSpells := ["The Log", "Zap", "Barbarian Barrel", "Arrows"]
      buildings := ["Bomb Tower", "Tesla"]
      air := ["Musketeer", "Phoenix", "Archers"]
      splash := ["Valkyrie", "Bomb Tower", "Magic Archer"] }
  | .Bait =>
    { winCons := ["Goblin Barrel", "Goblin Drill", "Wall Breakers"]
      supports := ["Princess", "Goblin Gang", "Dark Prince", "Knight"]
      cheapCycle := ["Skeletons", "Ice Spirit", "Fire Spirit", "Bats"]
      bigSpells := ["Rocket", "Fireball"]
      smallSpells := ["The Log", "Zap", "Barbarian Barrel"]
      buildings := ["Inferno Tower", "Cannon", "Bomb Tower"]
      air := ["Musketeer", "Archers", "Princess"]
      splash := ["Valkyrie", "Bomb Tower", "Princess"] }
  | .HybridOther =>
    { winCons := ["Royal Giant", "Hog Rider", "Miner"]
      supports := ["Musketeer", "Electro Wizard", "Phoenix", "Valkyrie", "Knight"]
      cheapCycle := ["Skeletons", "Ice Spirit", "Bats"]
      bigSpells := ["Fireball", "Poison", "Rocket"]
      smallSpells := ["The Log", "Zap", "Barbarian Barrel", "Earthquake"]
      buildings := ["Tesla", "Cannon", "Bomb Tower"]
      air := ["Musketeer", "Archers", "Phoenix"]
      splash := ["Valkyrie", "Bomb Tower", "Baby Dragon"] }

/-- `ANY` in `generateDeck`: the universal fallback list. -/
def ANY : List CardName :=
  ["Skeletons", "Ice Spirit", "Bats", "Knight", "Archers", "Musketeer",
   "Valkyrie", "Phoenix", "Cannon", "Tesla"]

/-- `deck.add(c)` on the JavaScript `Set` (insertion-ordered, ignores
cards already present). -/
def addCard (d : List CardName) (c : CardName) : List CardName :=
  if c ∈ d then d else d ++ [c]

/-- `pick(pool, n)` in `generateDeck`: owned cards of the pool, first
`n` of them. -/
def pick (allowed : CardName → Bool) (pool : List CardName) (n : Nat) :
    List CardName :=
  (pool.filter allowed).take n

/-- The support/cheap-cycle fill loop body of `generateDeck` (the `break`
at 8 cards is modelled by leaving the deck unchanged from then on). -/
def fillStep (d : List CardName) (c : CardName) : List CardName :=
  if 8 ≤ d.length then d else addCard d c

/-- The `ANY` backfill loop body of `generateDeck`. -/
def backfillStep (allowed : CardName → Bool) (d : List CardName)
    (c : CardName) : List CardName :=
  if d.length < 8 ∧ allowed c then addCard d c else d

/-- `generateDeck` from `logic.ts`.  `targetAvg` is accepted but unused
in the generation pass.  Ownership is the `allowed` membership test. -/
def generateDeck (arch : Archetype) (allowed : CardName → Bool)
    (targetAvg : ℚ) : Deck :=
  let P := POOLS arch
  let d1 := (pick allowed P.winCons 1).foldl addCard []
  let d2 := (pick allowed P.smallSpells 1).foldl addCard d1
  let d3 := (pick allowed P.bigSpells 1).foldl addCard d2
  let d4 := if arch = .BridgeSpam then d3
            else (pick allowed P.buildings 1).foldl addCard d3
  let d5 := (pick allowed P.air 1).foldl addCard d4
  let d6 := (pick allowed P.splash 1).foldl addCard d5
  let candidates := (P.supports ++ P.cheapCycle).filter allowed
  let d7 := candidates.foldl fillStep d6
  let d8 := ANY.foldl (backfillStep allowed) d7
  d8.take 8

/-- All cards of an archetype's declared pools together with the
universal fallback list. -/
def poolUniverse (arch : Archetype) : List CardName :=
  let P := POOLS arch
  P.winCons ++ P.supports ++ P.cheapCycle ++ P.bigSpells ++ P.smallSpells ++
  P.buildings ++ P.air ++ P.splash ++ ANY


/-- A model whose stored dims disagree with its feature builder. -/
def mismatchModel : WinProbModel where
  w := []
  dims := 5
  feat := fun _ _ => [1]

/-- Modelled from the spec: the registry data file
(`data/roles.map.json`) consumed by the role/cost registry at process
start is produced by an external build step and is not among the
sources.  This fragment follows the spec's example scenario (section 8):
`The Log` is a small spell, `Fireball` a big spell, `Cannon` a building;
all costs default. -/
def specRegistry : Registry where
  cost := fun _ => none
  winCon := fun _ => false
  bigSpell := fun c => c = "Fireball"
  smallSpell := fun c => c = "The Log"
  building := fun c => c = "Cannon"
  airTarget := fun _ => false
  splash := fun _ => false
  reset := fun _ => false
  champion := fun _ => false

/-- The spec's example deck with an evolved variant of The Log. -/
def evoDeck : Deck :=
  ["Hog Rider", "The Log (Evolved)", "Fireball", "Cannon", "Musketeer",
   "Skeletons", "Ice Spirit", "Earthquake"]

/-- A battle with both card lists present (usable for training). -/
def wBattle : Battle where
  team := [{ cards := some ["Knight"], crowns := some 2 }]
  opponent := [{ cards := some ["Giant"], crowns := some 1 }]

/-- A battlelog made of `n` usable battles. -/
def wBattles (n : Nat) : List Battle := List.replicate n wBattle

/-- The spec's per-example update: for each weight `j`,
`grad_j = (sigmoid(w.x) - y) * x_j + 1e-3 * w_j` and
`w_j` becomes `w_j - 0.1 * grad_j`. -/
def specGradUpdate (sig : ℚ → ℚ) (w : List ℚ) (ex : Example) : List ℚ :=
  (List.range w.length).map (fun j =>
    w.getD j 0 - (1/10) * ((sig (dot w ex.x) - ex.y) * ex.x.getD j 0 +
      (1/1000) * w.getD j 0))

/-- The spec's trainer: weights initialized to zero, 200 full passes over
the example list in order. -/
def specSGD (sig : ℚ → ℚ) (examples : List Example) (dims : Nat) : List ℚ :=
  (fun w => examples.foldl (specGradUpdate sig) w)^[200]
    (List.replicate dims 0)

/-- The running invariant of the generator pipeline: every card so far is
owned and the deck has no duplicates. -/
def AllowedNodup (allowed : CardName → Bool) (d : List CardName) : Prop :=
  d.all allowed = true ∧ d.Nodup

/-! ### Helper lemmas -/

lemma normCore_of_not_paren {s : List Char} (h : '(' ∉ s) :
    normCore s = s := by
  unfold normCore
  rw [if_neg]
  intro hc
  exact h hc.2

lemma not_paren_normCore (s : List Char) : '(' ∉ normCore s ∨ normCore s = s := by
  unfold normCore
  by_cases h : s.getLast? = some ')' ∧ '(' ∈ s
  · left
    rw [if_pos h]
    intro hmem
    have h1 : '(' ∈ (s.takeWhile (fun c => !(c = '(' : Bool))).reverse := by
      have := List.dropWhile_sublist
        (l := (s.takeWhile (fun c => !(c = '(' : Bool))).reverse)
        (p := fun c => c.isWhitespace)
      exact this.subset (List.mem_reverse.mp (by simpa [dropTrailingWs] using hmem))
    have h2 : '(' ∈ s.takeWhile (fun c => !(c = '(' : Bool)) :=
      List.mem_reverse.mp h1
    have h3 := List.mem_takeWhile_imp h2
    simp at h3
  · right
    rw [if_neg h]

lemma normCore_idem (s : List Char) : normCore (normCore s) = normCore s := by
  rcases not_paren_normCore s with h | h
  · exact normCore_of_not_paren h
  · rw [h, h]

lemma normalizeName_idem (s : String) :
    normalizeName (normalizeName s) = normalizeName s :=
  congrArg String.mk (normCore_idem s.data)

lemma map_normalizeName_idem (deck : Deck) :
    (deck.map normalizeName).map normalizeName = deck.map normalizeName := by
  induction deck with
  | nil => rfl
  | cons c t ih => simp only [List.map_cons, normalizeName_idem, ih]

lemma avgElixir_map_normalizeName (R : Registry) (deck : Deck) :
    avgElixir R (deck.map normalizeName) = avgElixir R deck := by
  unfold avgElixir
  rw [map_normalizeName_idem]

lemma deckWinconOneHot_map_normalizeName (deck : Deck) :
    deckWinconOneHot (deck.map normalizeName) = deckWinconOneHot deck := by
  unfold deckWinconOneHot
  rw [map_normalizeName_idem]

lemma buildFeatures_length (R : Registry) (deck : Deck) (a : Archetype)
    (cd : ℚ) : (buildFeatures R deck a cd).length = 33 := by
  simp [buildFeatures, deckWinconOneHot, archetypeOneHot, WINCONS, ARCHES]

lemma getLast?_chain (l₁ l₂ l₃ : List ℚ) (c : ℚ) :
    (l₁ ++ (l₂ ++ (l₃ ++ [c]))).getLast? = some c := by
  rw [← List.append_assoc, ← List.append_assoc]
  exact List.getLast?_concat _


lemma countP_arch_partition (R : Registry) (l : List UB) :
    (ARCHES.map (fun a => l.countP
      (fun u => decide ((analyzeDeck R u.oppDeck).archetype = a)))).sum =
      l.length := by
  induction l with
  | nil => simp [ARCHES]
  | cons u t ih =>
    rcases h : (analyzeDeck R u.oppDeck).archetype <;>
      simp [ARCHES, List.countP_cons, h] at ih ⊢ <;> omega

lemma archCounts_sum (R : Registry) (bs : List Battle) :
    (ARCHES.map (archCounts R bs)).sum = (usable bs).length := by
  simpa [archCounts] using countP_arch_partition R (usable bs)

lemma sum_map_div {α : Type} (l : List α) (f : α → ℚ) (T : ℚ) :
    (l.map (fun a => f a / T)).sum = (l.map f).sum / T := by
  induction l with
  | nil => simp
  | cons x t ih => simp [ih, add_div]

lemma sum_map_natCast {α : Type} (l : List α) (f : α → ℕ) :
    (l.map (fun a => (f a : ℚ))).sum = ((l.map f).sum : ℚ) := by
  induction l with
  | nil => simp
  | cons x t ih => simp [ih]

lemma oppDistOf_snd_sum (R : Registry) (bs : List Battle) :
    ((oppDistOf R bs).map Prod.snd).sum =
      ((usable bs).length : ℚ) / (distTotal R bs : ℚ) := by
  unfold oppDistOf
  rw [List.map_map]
  have : (Prod.snd ∘ fun a =>
      (a, (archCounts R bs a : ℚ) / (distTotal R bs : ℚ))) =
      fun a => (archCounts R bs a : ℚ) / (distTotal R bs : ℚ) := rfl
  rw [this, sum_map_div, sum_map_natCast, archCounts_sum]

lemma core_oppDist (R : Registry) (sig : ℚ → ℚ) (bs : List Battle) :
    (trainWinProbCore R sig bs).oppDist = oppDistOf R bs := by
  by_cases h : (mkExamples R bs).length < 10 <;>
    simp [trainWinProbCore, h]

lemma core_samples (R : Registry) (sig : ℚ → ℚ) (bs : List Battle) :
    (trainWinProbCore R sig bs).samples = (usable bs).length := by
  have hlen : (mkExamples R bs).length = (usable bs).length := by
    simp [mkExamples]
  by_cases h : (usable bs).length < 10 <;>
    simp [trainWinProbCore, hlen, h]

lemma core_model_none (R : Registry) (sig : ℚ → ℚ) (bs : List Battle)
    (h : (usable bs).length < 10) :
    (trainWinProbCore R sig bs).model = none := by
  have hex : (mkExamples R bs).length < 10 := by simpa [mkExamples] using h
  simp [trainWinProbCore, hex]

lemma core_model_some (R : Registry) (sig : ℚ → ℚ) (bs : List Battle)
    (h : ¬ (usable bs).length < 10) :
    (trainWinProbCore R sig bs).model.isSome = true := by
  have hex : ¬ (mkExamples R bs).length < 10 := by simpa [mkExamples] using h
  simp [trainWinProbCore, hex]

lemma sgdStep_eq_specGradUpdate (sig : ℚ → ℚ) :
    sgdStep sig (1/1000) (1/10) = specGradUpdate sig := by
  funext w ex
  unfold sgdStep specGradUpdate
  rfl

lemma trainLogReg_eq_specSGD (sig : ℚ → ℚ) (e : Example)
    (es : List Example) :
    trainLogReg sig (e :: es) (1/1000) (1/10) 200 =
      (specSGD sig (e :: es) e.x.length, e.x.length) := by
  unfold trainLogReg specSGD
  rw [sgdStep_eq_specGradUpdate]

lemma mkExamples_x_length (R : Registry) (bs : List Battle) (e : Example)
    (he : e ∈ mkExamples R bs) : e.x.length = 33 := by
  obtain ⟨u, _, hu⟩ := List.mem_map.mp (by simpa [mkExamples] using he)
  rw [← hu]
  simp [exampleOf, buildFeatures_length]

lemma foldl_inv {α β : Type} (P : α → Prop) (f : α → β → α) (l : List β)
    (hstep : ∀ d c, c ∈ l → P d → P (f d c)) :
    ∀ init, P init → P (l.foldl f init) := by
  induction l with
  | nil => exact fun init h => h
  | cons x t ih =>
    intro init h
    exact ih (fun d c hc => hstep d c (List.mem_cons_of_mem _ hc)) _
      (hstep init x (List.mem_cons_self _ _) h)

lemma addCard_inv (allowed : CardName → Bool) (d : List CardName)
    (c : CardName) (hc : allowed c = true) (hd : AllowedNodup allowed d) :
    AllowedNodup allowed (addCard d c) := by
  obtain ⟨h1, h2⟩ := hd
  unfold addCard
  split
  · exact ⟨h1, h2⟩
  · rename_i hmem
    constructor
    · rw [List.all_eq_true] at h1 ⊢
      intro x hx
      rcases List.mem_append.mp hx with hx | hx
      · exact h1 x hx
      · rw [List.mem_singleton.mp hx]
        exact hc
    · rw [← List.concat_eq_append]
      exact h2.concat hmem

lemma mem_pick_allowed (allowed : CardName → Bool) (pool : List CardName)
    (n : Nat) (c : CardName) (hc : c ∈ pick allowed pool n) :
    allowed c = true := by
  unfold pick at hc
  exact List.of_mem_filter (List.take_subset n _ hc)

lemma pickfold_inv (allowed : CardName → Bool) (pool : List CardName)
    (n : Nat) {d : List CardName} (hd : AllowedNodup allowed d) :
    AllowedNodup allowed ((pick allowed pool n).foldl addCard d) :=
  foldl_inv _ _ _
    (fun d c hc h => addCard_inv allowed d c
      (mem_pick_allowed allowed pool n c hc) h) d hd

lemma fillfold_inv (allowed : CardName → Bool) (l : List CardName)
    {d : List CardName} (hd : AllowedNodup allowed d) :
    AllowedNodup allowed ((l.filter allowed).foldl fillStep d) := by
  refine foldl_inv _ _ _ ?_ d hd
  intro d c hc h
  unfold fillStep
  split
  · exact h
  · exact addCard_inv allowed d c (List.of_mem_filter hc) h

lemma backfold_inv (allowed : CardName → Bool) (l : List CardName)
    {d : List CardName} (hd : AllowedNodup allowed d) :
    AllowedNodup allowed (l.foldl (backfillStep allowed) d) := by
  refine foldl_inv _ _ _ ?_ d hd
  intro d c _ h
  unfold backfillStep
  split
  · rename_i hcond
    exact addCard_inv allowed d c hcond.2 h
  · exact h

lemma all_take (p : CardName → Bool) (l : List CardName) (n : Nat)
    (h : l.all p = true) : (l.take n).all p = true := by
  rw [List.all_eq_true] at h ⊢
  exact fun x hx => h x (List.take_subset n l hx)

lemma foldl_congr_mem {α β : Type} (l : List β) (f g : α → β → α)
    (h : ∀ d c, c ∈ l → f d c = g d c) :
    ∀ init, l.foldl f init = l.foldl g init := by
  induction l with
  | nil => exact fun _ => rfl
  | cons x t ih =>
    intro init
    rw [List.foldl_cons, List.foldl_cons, h init x (List.mem_cons_self _ _)]
    exact ih (fun d c hc => h d c (List.mem_cons_of_mem _ hc)) _

lemma pick_congr (allowed : CardName → Bool) (pool : List CardName)
    (n : Nat) (h : ∀ c ∈ pool, allowed c = true) :
    pick allowed pool n = pick (fun _ => true) pool n := by
  unfold pick
  rw [List.filter_eq_self.mpr h, List.filter_eq_self.mpr (fun c _ => rfl)]

lemma filter_congr_true (allowed : CardName → Bool) (l : List CardName)
    (h : ∀ c ∈ l, allowed c = true) :
    l.filter allowed = l.filter (fun _ => true) := by
  rw [List.filter_eq_self.mpr h, List.filter_eq_self.mpr (fun c _ => rfl)]

lemma backfold_congr (allowed : CardName → Bool)
    (h : ∀ c ∈ ANY, allowed c = true) (d : List CardName) :
    ANY.foldl (backfillStep allowed) d =
      ANY.foldl (backfillStep (fun _ => true)) d := by
  refine foldl_congr_mem ANY _ _ ?_ d
  intro d c hc
  unfold backfillStep
  simp [h c hc]

lemma generateDeck_congr (arch : Archetype) (allowed : CardName → Bool)
    (t : ℚ) (h : ∀ c ∈ poolUniverse arch, allowed c = true) :
    generateDeck arch allowed t = generateDeck arch (fun _ => true) t := by
  have hW : ∀ c ∈ (POOLS arch).winCons, allowed c = true :=
    fun c hc => h c (by simp [poolUniverse, List.mem_append]; tauto)
  have hS : ∀ c ∈ (POOLS arch).smallSpells, allowed c = true :=
    fun c hc => h c (by simp [poolUniverse, List.mem_append]; tauto)
  have hB : ∀ c ∈ (POOLS arch).bigSpells, allowed c = true :=
    fun c hc => h c (by simp [poolUniverse, List.mem_append]; tauto)
  have hBu : ∀ c ∈ (POOLS arch).buildings, allowed c = true :=
    fun c hc => h c (by simp [poolUniverse, List.mem_append]; tauto)
  have hA : ∀ c ∈ (POOLS arch).air, allowed c = true :=
    fun c hc => h c (by simp [poolUniverse, List.mem_append]; tauto)
  have hSp : ∀ c ∈ (POOLS arch).splash, allowed c = true :=
    fun c hc => h c (by simp [poolUniverse, List.mem_append]; tauto)
  have hCand : ∀ c ∈ (POOLS arch).supports ++ (POOLS arch).cheapCycle,
      allowed c = true := by
    intro c hc
    rcases List.mem_append.mp hc with hc | hc <;>
      exact h c (by simp [poolUniverse, List.mem_append]; tauto)
  have hAny : ∀ c ∈ ANY, allowed c = true :=
    fun c hc => h c (by simp [poolUniverse, List.mem_append]; tauto)
  unfold generateDeck
  dsimp only
  rw [pick_congr allowed (POOLS arch).winCons 1 hW,
      pick_congr allowed (POOLS arch).smallSpells 1 hS,
      pick_congr allowed (POOLS arch).bigSpells 1 hB,
      pick_congr allowed (POOLS arch).buildings 1 hBu,
      pick_congr allowed (POOLS arch).air 1 hA,
      pick_congr allowed (POOLS arch).splash 1 hSp,
      filter_congr_true allowed _ hCand,
      backfold_congr allowed hAny]

/-! ### Claim theorems -/

/-- C7: for every deck, opponent archetype and crown differential, the
feature vector has length exactly 33 (1 bias + 1 avg elixir + 7 role
flags + 16 win-condition one-hot + 7 opponent-archetype one-hot + 1
crown entry), and its final entry is the crown differential clamped to
the interval [-3, 3]. -/
theorem C7_feature_vector_layout (R : Registry) (deck : Deck)
    (arch : Archetype) (cd : ℚ) :
    (buildFeatures R deck arch cd).length = 33 ∧
    (buildFeatures R deck arch cd).getLast? = some (max (-3) (min 3 cd)) ∧
    -3 ≤ max (-3) (min 3 cd) ∧ max (-3) (min 3 cd) ≤ 3 := by
  refine ⟨buildFeatures_length R deck arch cd, ?_, le_max_left _ _, ?_⟩
  · unfold buildFeatures
    exact getLast?_chain
      [(1 : ℚ), avgElixir R deck, has R.bigSpell deck, has R.smallSpell deck,
       has R.building deck, has R.airTarget deck, has R.splash deck,
       has R.reset deck, has R.champion deck]
      (deckWinconOneHot deck) (archetypeOneHot arch) (max (-3) (min 3 cd))
  · exact max_le (by norm_num) (min_le_left _ _)

/-- C9: whenever the feature vector built for a deck has a length
different from the model's recorded dims, `predictWinProb` returns the
neutral probability 0.5. -/
theorem C9_predict_dim_mismatch (sig : ℚ → ℚ) (m : WinProbModel)
    (deck : Deck) (arch : Archetype)
    (h : (m.feat deck arch).length ≠ m.dims) :
    predictWinProb sig m deck arch = 1/2 := by
  unfold predictWinProb
  rw [if_pos h]

theorem C9_predict_dim_mismatch_witness :
    (mismatchModel.feat [] Archetype.Cycle).length ≠ mismatchModel.dims ∧
    predictWinProb id mismatchModel [] Archetype.Cycle = 1/2 :=
  ⟨by decide, C9_predict_dim_mismatch id mismatchModel [] Archetype.Cycle (by decide)⟩

/-- C5: a deck containing a siege unit (X-Bow or Mortar, after variant
normalization) always classifies as Siege: the siege rule is the first
rule of the precedence chain, so every other property of the deck is
irrelevant. -/
theorem C5_siege_precedence (R : Registry) (cards : Deck)
    (h : ∃ c ∈ cards, normalizeName c = "X-Bow" ∨ normalizeName c = "Mortar") :
    (analyzeDeck R cards).archetype = Archetype.Siege := by
  obtain ⟨c, hc, hn⟩ := h
  have hany : (cards.map normalizeName).any
      (fun n => decide (n = "X-Bow" ∨ n = "Mortar")) = true :=
    List.any_eq_true.mpr
      ⟨normalizeName c, List.mem_map_of_mem _ hc, by simpa using hn⟩
  simp [analyzeDeck, classifyArchetype, hany]
  intro hall
  rcases hn with h1 | h1
  · exact absurd h1 (hall c hc).1
  · exact absurd h1 (hall c hc).2

theorem C5_siege_precedence_witness :
    (∃ c ∈ (["X-Bow", "Golem", "Giant", "Lava Hound", "Electro Giant",
        "Lightning", "Bomb Tower", "Baby Dragon"] : Deck),
      normalizeName c = "X-Bow" ∨ normalizeName c = "Mortar") ∧
    (analyzeDeck emptyRegistry
      ["X-Bow", "Golem", "Giant", "Lava Hound", "Electro Giant",
       "Lightning", "Bomb Tower", "Baby Dragon"]).archetype = Archetype.Siege :=
  ⟨⟨"X-Bow", by decide, by left; rfl⟩,
   C5_siege_precedence emptyRegistry _ ⟨"X-Bow", by decide, by left; rfl⟩⟩

/-- C1 counterexample: `analyzeDeck` on an empty card list divides by a
zero count (`costs.reduce(...) / costs.length` with no guard), so the
average elixir is NaN (`none`), not a well-defined number. -/
theorem C1_empty_deck_nan_counterexample :
    (analyzeDeck emptyRegistry []).avgElixir = none := by rfl

/-- C1 amended: for every nonempty card list (in particular decks with
fewer than 8 valid names) the average elixir is well defined and is the
rounded mean of the per-card costs over the actual card count; the
division is not guarded, so the empty list yields NaN. -/
theorem C1_avg_uses_actual_count (R : Registry) (cards : Deck)
    (h : cards ≠ []) :
    (analyzeDeck R cards).avgElixir =
      some ((roundJs
        (((cards.map (fun c => ((R.cost (normalizeName c)).getD 4 : ℚ))).sum /
          (cards.length : ℚ)) * 10) : ℚ) / 10) := by
  have hne : cards.length ≠ 0 := fun hl => h (List.length_eq_zero.mp hl)
  simp [analyzeDeck, hne, List.map_map, Function.comp_def]

theorem C1_avg_uses_actual_count_witness :
    ((["Knight"] : Deck) ≠ []) ∧
    (analyzeDeck emptyRegistry ["Knight"]).avgElixir =
      some ((roundJs
        ((((["Knight"] : Deck).map
            (fun c => ((emptyRegistry.cost (normalizeName c)).getD 4 : ℚ))).sum /
          (((["Knight"] : Deck)).length : ℚ)) * 10) : ℚ) / 10) :=
  ⟨by decide, C1_avg_uses_actual_count emptyRegistry ["Knight"] (by decide)⟩

/-- C3 counterexample: `buildFeatures` does not strip the variant suffix
before its role-set membership lookups (`has` tests the raw names), so a
deck carrying `The Log (Evolved)` gets small-spell flag 0 while the
suffix-stripped deck gets 1: the two feature vectors differ. -/
theorem C3_variant_not_stripped_counterexample :
    buildFeatures specRegistry evoDeck Archetype.HybridOther 0 ≠
      buildFeatures specRegistry (evoDeck.map normalizeName)
        Archetype.HybridOther 0 := by
  intro h
  have h3 := congrArg (fun l => l.getD 3 0) h
  have hL : has specRegistry.smallSpell evoDeck = 0 := by decide
  have hR : has specRegistry.smallSpell (evoDeck.map normalizeName) = 1 := by
    decide
  simp only [buildFeatures, List.getD_cons_succ, List.getD_cons_zero,
    hL, hR] at h3
  exact absurd h3 (by norm_num)

/-- C3 amended: the variant suffix is stripped before every cost lookup
(the average-elixir entry) and before the win-condition one-hot, but not
before the role-set membership lookups: entries 0-1 and 9-32 of the
feature vector are invariant under stripping the deck's suffixes, while
the seven role-flag entries (2-8) test raw names and may differ. -/
theorem C3_strip_only_cost_and_wincon (R : Registry) (deck : Deck)
    (arch : Archetype) (cd : ℚ) :
    (buildFeatures R (deck.map normalizeName) arch cd).take 2 =
      (buildFeatures R deck arch cd).take 2 ∧
    (buildFeatures R (deck.map normalizeName) arch cd).drop 9 =
      (buildFeatures R deck arch cd).drop 9 := by
  unfold buildFeatures
  constructor
  · show [(1 : ℚ), avgElixir R (deck.map normalizeName)] =
      [(1 : ℚ), avgElixir R deck]
    rw [avgElixir_map_normalizeName]
  · show deckWinconOneHot (deck.map normalizeName) ++
        (archetypeOneHot arch ++ [max (-3) (min 3 cd)]) =
      deckWinconOneHot deck ++ (archetypeOneHot arch ++ [max (-3) (min 3 cd)])
    rw [deckWinconOneHot_map_normalizeName]


/-- C2 counterexample: with zero battles carrying a usable opponent deck
the `|| 1` fallback makes the divisor 1 while every count is 0, so the
returned distribution weights sum to 0, not 1. -/
theorem C2_sum_one_counterexample :
    (((trainWinProbCore emptyRegistry id []).oppDist.map Prod.snd).sum) ≠ 1 := by
  rw [core_oppDist, oppDistOf_snd_sum]
  norm_num [usable]

/-- C2 amended: the returned distribution always covers exactly the 7
archetypes in `ARCHES` order (weight 0 for unseen ones) and is returned
even when the model is null; its weights sum to 1 whenever at least one
battle has a usable opponent deck, but sum to 0 when no battle does. -/
theorem C2_opp_dist_weights (R : Registry) (sig : ℚ → ℚ)
    (bs : List Battle) :
    ((trainWinProbCore R sig bs).oppDist.map Prod.fst = ARCHES) ∧
    (0 < (usable bs).length →
      ((trainWinProbCore R sig bs).oppDist.map Prod.snd).sum = 1) ∧
    ((usable bs).length = 0 →
      ((trainWinProbCore R sig bs).oppDist.map Prod.snd).sum = 0) := by
  rw [core_oppDist]
  refine ⟨?_, ?_, ?_⟩
  · unfold oppDistOf
    rw [List.map_map]
    exact List.map_id _
  · intro hpos
    rw [oppDistOf_snd_sum]
    have hs : (ARCHES.map (archCounts R bs)).sum = (usable bs).length :=
      archCounts_sum R bs
    have hT : distTotal R bs = (usable bs).length := by
      unfold distTotal
      rw [hs, if_neg (by omega)]
    rw [hT]
    have hne : (usable bs).length ≠ 0 := by omega
    exact div_self (by exact_mod_cast hne)
  · intro hzero
    rw [oppDistOf_snd_sum, hzero]
    simp

/-- C6: the trainer result always reports the usable-battle count as
`samples` and always returns the opponent distribution; with exactly 9
usable examples the model is null (training skipped), with exactly 10 it
is non-null (training proceeds). -/
theorem C6_ten_example_boundary (R : Registry) (sig : ℚ → ℚ)
    (bs : List Battle) :
    (trainWinProbCore R sig bs).samples = (usable bs).length ∧
    (trainWinProbCore R sig bs).oppDist = oppDistOf R bs ∧
    ((trainWinProbCore R sig bs).samples = 9 →
      (trainWinProbCore R sig bs).model = none) ∧
    ((trainWinProbCore R sig bs).samples = 10 →
      (trainWinProbCore R sig bs).model.isSome = true) := by
  refine ⟨core_samples R sig bs, core_oppDist R sig bs, ?_, ?_⟩
  · intro h9
    rw [core_samples] at h9
    exact core_model_none R sig bs (by omega)
  · intro h10
    rw [core_samples] at h10
    exact core_model_some R sig bs (by omega)

theorem C2_opp_dist_weights_witness :
    0 < (usable (wBattles 1)).length ∧
    ((trainWinProbCore emptyRegistry id (wBattles 1)).oppDist.map
      Prod.snd).sum = 1 :=
  ⟨by decide,
   (C2_opp_dist_weights emptyRegistry id (wBattles 1)).2.1 (by decide)⟩

theorem C6_ten_example_boundary_witness :
    ((trainWinProbCore emptyRegistry id (wBattles 9)).samples = 9 ∧
     (trainWinProbCore emptyRegistry id (wBattles 9)).model = none) ∧
    ((trainWinProbCore emptyRegistry id (wBattles 10)).samples = 10 ∧
     (trainWinProbCore emptyRegistry id (wBattles 10)).model.isSome = true) := by
  have h9 : (trainWinProbCore emptyRegistry id (wBattles 9)).samples = 9 := by
    rw [core_samples]
    rfl
  have h10 : (trainWinProbCore emptyRegistry id (wBattles 10)).samples = 10 := by
    rw [core_samples]
    rfl
  exact ⟨⟨h9, (C6_ten_example_boundary emptyRegistry id (wBattles 9)).2.2.1 h9⟩,
         ⟨h10, (C6_ten_example_boundary emptyRegistry id (wBattles 10)).2.2.2 h10⟩⟩


/-- C4: whenever at least 10 usable examples exist, the produced model is
exactly the spec's L2-regularized logistic-regression SGD run on the
ordered example list: zero-initialized weights, 200 full passes in battle
order, learning rate 0.1, L2 coefficient 1e-3, dims 33; the weights are a
deterministic function of the ordered example list. -/
theorem C4_trains_exact_spec_sgd (R : Registry) (sig : ℚ → ℚ)
    (bs : List Battle) (h : 10 ≤ (trainWinProbCore R sig bs).samples) :
    (trainWinProbCore R sig bs).model =
      some { w := specSGD sig (mkExamples R bs) 33, dims := 33,
             feat := fun d a => buildFeatures R d a 0 } := by
  rw [core_samples] at h
  have hlen : (mkExamples R bs).length = (usable bs).length := by
    simp [mkExamples]
  have hne : ¬ (mkExamples R bs).length < 10 := by omega
  obtain ⟨e, es, hex⟩ : ∃ e es, mkExamples R bs = e :: es := by
    cases hx : mkExamples R bs with
    | nil => rw [hx] at hlen; simp at hlen; omega
    | cons e es => exact ⟨e, es, rfl⟩
  have hdim : e.x.length = 33 :=
    mkExamples_x_length R bs e (hex ▸ List.mem_cons_self e es)
  have hcore : (trainWinProbCore R sig bs).model =
      some { w := (trainLogReg sig (mkExamples R bs) (1/1000) (1/10) 200).1,
             dims := (trainLogReg sig (mkExamples R bs) (1/1000) (1/10) 200).2,
             feat := fun d a => buildFeatures R d a 0 } := by
    simp [trainWinProbCore, hne]
  rw [hcore, hex, trainLogReg_eq_specSGD, hdim]

theorem C4_trains_exact_spec_sgd_witness :
    10 ≤ (trainWinProbCore emptyRegistry id (wBattles 10)).samples ∧
    (trainWinProbCore emptyRegistry id (wBattles 10)).model =
      some { w := specSGD id (mkExamples emptyRegistry (wBattles 10)) 33,
             dims := 33,
             feat := fun d a => buildFeatures emptyRegistry d a 0 } := by
  have h10 : 10 ≤ (trainWinProbCore emptyRegistry id (wBattles 10)).samples := by
    rw [core_samples]
    decide
  exact ⟨h10, C4_trains_exact_spec_sgd emptyRegistry id (wBattles 10) h10⟩


/-- C10: for every archetype, ownership predicate and target average, the
generated deck contains only owned cards, has no duplicates, and has at
most 8 cards. -/
theorem C10_generated_deck_invariants (arch : Archetype)
    (allowed : CardName → Bool) (t : ℚ) :
    ((generateDeck arch allowed t).all allowed = true) ∧
    (generateDeck arch allowed t).Nodup ∧
    (generateDeck arch allowed t).length ≤ 8 := by
  have base : AllowedNodup allowed [] := ⟨rfl, List.nodup_nil⟩
  have h3 : AllowedNodup allowed
      ((pick allowed (POOLS arch).bigSpells 1).foldl addCard
        ((pick allowed (POOLS arch).smallSpells 1).foldl addCard
          ((pick allowed (POOLS arch).winCons 1).foldl addCard []))) :=
    pickfold_inv allowed _ 1 (pickfold_inv allowed _ 1
      (pickfold_inv allowed _ 1 base))
  have h4 : AllowedNodup allowed
      (if arch = Archetype.BridgeSpam then
        ((pick allowed (POOLS arch).bigSpells 1).foldl addCard
          ((pick allowed (POOLS arch).smallSpells 1).foldl addCard
            ((pick allowed (POOLS arch).winCons 1).foldl addCard [])))
      else (pick allowed (POOLS arch).buildings 1).foldl addCard
        ((pick allowed (POOLS arch).bigSpells 1).foldl addCard
          ((pick allowed (POOLS arch).smallSpells 1).foldl addCard
            ((pick allowed (POOLS arch).winCons 1).foldl addCard [])))) := by
    split
    · exact h3
    · exact pickfold_inv allowed _ 1 h3
  have h8 : AllowedNodup allowed
      (ANY.foldl (backfillStep allowed)
        ((((POOLS arch).supports ++ (POOLS arch).cheapCycle).filter
            allowed).foldl fillStep
          ((pick allowed (POOLS arch).splash 1).foldl addCard
            ((pick allowed (POOLS arch).air 1).foldl addCard
              (if arch = Archetype.BridgeSpam then
                ((pick allowed (POOLS arch).bigSpells 1).foldl addCard
                  ((pick allowed (POOLS arch).smallSpells 1).foldl addCard
                    ((pick allowed (POOLS arch).winCons 1).foldl addCard [])))
              else (pick allowed (POOLS arch).buildings 1).foldl addCard
                ((pick allowed (POOLS arch).bigSpells 1).foldl addCard
                  ((pick allowed (POOLS arch).smallSpells 1).foldl addCard
                    ((pick allowed (POOLS arch).winCons 1).foldl addCard
                      [])))))))) :=
    backfold_inv allowed ANY (fillfold_inv allowed _
      (pickfold_inv allowed _ 1 (pickfold_inv allowed _ 1 h4)))
  refine ⟨?_, ?_, ?_⟩
  · exact all_take allowed _ 8 h8.1
  · exact h8.2.sublist (List.take_sublist 8 _)
  · simp only [generateDeck, List.length_take]
    exact min_le_left 8 _

/-- C8: for every archetype, if the ownership set contains every card of
the archetype's pools and of the universal fallback list, the generated
deck has exactly 8 pairwise-distinct cards, each drawn from the
archetype's pools or the fallback list. -/
theorem C8_full_ownership_deck (arch : Archetype)
    (allowed : CardName → Bool) (t : ℚ)
    (h : ∀ c ∈ poolUniverse arch, allowed c = true) :
    (generateDeck arch allowed t).length = 8 ∧
    (generateDeck arch allowed t).Nodup ∧
    ∀ c ∈ generateDeck arch allowed t, c ∈ poolUniverse arch := by
  rw [generateDeck_congr arch allowed t h]
  have ht : generateDeck arch (fun _ => true) t =
      generateDeck arch (fun _ => true) 0 := rfl
  rw [ht]
  cases arch <;> exact ⟨by decide, by decide, by decide⟩

theorem C8_full_ownership_deck_witness :
    (∀ c ∈ poolUniverse Archetype.Cycle,
      (fun (_ : CardName) => true) c = true) ∧
    ((generateDeck Archetype.Cycle (fun _ => true) 3).length = 8 ∧
     (generateDeck Archetype.Cycle (fun _ => true) 3).Nodup ∧
     ∀ c ∈ generateDeck Archetype.Cycle (fun _ => true) 3,
       c ∈ poolUniverse Archetype.Cycle) :=
  ⟨fun _ _ => rfl,
   C8_full_ownership_deck Archetype.Cycle (fun _ => true) 3 (fun _ _ => rfl)⟩
